import Mathlib

/-!
# Verification of the S3 `SelectObjectContent` streaming-response decoder

Shallow embedding of the stream-consumption loop of `queryFile`
(s3 sample, `queryFile`, the `for await (let s of result.Payload)` loop):

```js
let data = "";
// ...
if (result.Payload) {
  for await (let s of result.Payload) {
    if (s.Records) {
      data = new TextDecoder().decode(s.Records.Payload);
    } else if (s.Stats) {
      console.log(s.Stats.Details)
    } else if (s.End) {
      console.log('End of stream')
    }
  }
  console.log(data);
} else {
  console.log('No result')
}
```

The stream is a finite sequence of tagged messages.  The loop dispatches on
the tag: `Records` re-assigns the accumulated text with the decoded payload,
`Stats` logs its details, `End` logs a fixed line; every other tag
(`Progress`, `Continuation`, `Error`) matches no branch and is a no-op.
The loop never breaks early: it runs until the sequence is exhausted.

`new TextDecoder().decode` is the WHATWG UTF-8 decoder in its default
(non-fatal) mode: invalid byte sequences are replaced by U+FFFD and a
leading byte-order mark is stripped; it never throws.
-/

/-- The tagged message variants a `SelectObjectContent` payload stream can
carry (Records / Stats / Progress / Continuation / End / Error); exactly one
variant is active per message. Payload bytes are modelled as `List Nat`
(each < 256 in practice). -/
inductive SelectMessage where
  | records (payload : List Nat)
  | stats (details : String)
  | progress (details : String)
  | contToken (token : String)
  | endMsg
  | errMsg (code : String) (detail : String)

deriving instance DecidableEq for SelectMessage

/-! ## The WHATWG UTF-8 decoder (`new TextDecoder().decode`), non-fatal mode -/

/-- Decoder state of the WHATWG UTF-8 decoding algorithm: the code point
being assembled, how many continuation bytes are needed and seen, and the
admissible range for the next continuation byte. -/
structure Utf8State where
  codePoint : Nat
  bytesNeeded : Nat
  bytesSeen : Nat
  lower : Nat
  upper : Nat

deriving instance DecidableEq for Utf8State

/-- Initial UTF-8 decoder state. -/
def utf8Init : Utf8State := ⟨0, 0, 0, 0x80, 0xBF⟩

/-- Handle one byte in the start state (`bytesNeeded = 0`): ASCII is emitted
directly, lead bytes set up the multi-byte state (with the lower/upper
boundary adjustments of the WHATWG algorithm), anything else is an error,
emitted as U+FFFD (non-fatal mode). Returns emitted code points and the
next state. -/
def utf8Start (b : Nat) : List Nat × Utf8State :=
  if b ≤ 0x7F then
    ([b], utf8Init)
  else if 0xC2 ≤ b ∧ b ≤ 0xDF then
    ([], ⟨b &&& 0x1F, 1, 0, 0x80, 0xBF⟩)
  else if 0xE0 ≤ b ∧ b ≤ 0xEF then
    ([], ⟨b &&& 0x0F, 2, 0, if b = 0xE0 then 0xA0 else 0x80,
          if b = 0xED then 0x9F else 0xBF⟩)
  else if 0xF0 ≤ b ∧ b ≤ 0xF4 then
    ([], ⟨b &&& 0x07, 3, 0, if b = 0xF0 then 0x90 else 0x80,
          if b = 0xF4 then 0x8F else 0xBF⟩)
  else
    ([0xFFFD], utf8Init)

/-- The WHATWG UTF-8 decoding loop in non-fatal mode, producing the list of
decoded code points.  An out-of-range continuation byte emits U+FFFD and
re-processes the byte in the start state; a truncated sequence at end of
stream emits one final U+FFFD. -/
def utf8Loop : List Nat → Utf8State → List Nat
  | [], st => if st.bytesNeeded = 0 then [] else [0xFFFD]
  | b :: bs, st =>
    if st.bytesNeeded = 0 then
      let p := utf8Start b
      p.1 ++ utf8Loop bs p.2
    else if st.lower ≤ b ∧ b ≤ st.upper then
      let cp := (st.codePoint <<< 6) ||| (b &&& 0x3F)
      if st.bytesSeen + 1 = st.bytesNeeded then
        cp :: utf8Loop bs utf8Init
      else
        utf8Loop bs ⟨cp, st.bytesNeeded, st.bytesSeen + 1, 0x80, 0xBF⟩
    else
      let p := utf8Start b
      0xFFFD :: (p.1 ++ utf8Loop bs p.2)

/-- Decoded code points of a byte sequence, with a leading byte-order mark
(U+FEFF, the decoding of EF BB BF) stripped, as `TextDecoder` does by
default (`ignoreBOM` unset). -/
def utf8DecodeCps (bs : List Nat) : List Nat :=
  match utf8Loop bs utf8Init with
  | [] => []
  | c :: rest => if c = 0xFEFF then rest else c :: rest

/-- `new TextDecoder().decode(bytes)`: the decoded code points rendered as a
string.  All code points emitted by the algorithm are valid scalar values,
so `Char.ofNat` is faithful here. -/
def textDecode (bs : List Nat) : String :=
  String.mk ((utf8DecodeCps bs).map Char.ofNat)

/-! ## The consumption loop -/

/-- One observable emission on the console side channel.  The loop emits
`statsDetails` for a `Stats` message and `endOfStream` for an `End` message;
after the loop `queryFile` emits `dataOut` with the accumulated text, and
`noResult` when the response has no payload stream.  `progressDetails` is
the emission the spec expects for a `Progress` message; the source never
produces it (there is no `Progress` branch), it exists here only so that
claims about it can be stated. -/
inductive LogEvent where
  | statsDetails (d : String)
  | progressDetails (d : String)
  | endOfStream
  | dataOut (s : String)
  | noResult

deriving instance DecidableEq for LogEvent

/-- State threaded through the consumption loop: the accumulated text
(`let data = ""`) and the trace of side-channel emissions so far. -/
structure DecState where
  data : String
  trace : List LogEvent

deriving instance DecidableEq for DecState

/-- The state at loop entry: empty text, no emissions. -/
def initState : DecState := ⟨"", []⟩

/-- One iteration of the loop body: the `if (s.Records) ... else if (s.Stats)
... else if (s.End) ...` chain.  `Records` re-assigns the accumulated text
(it does not append); `Stats` and `End` log; every other variant matches no
branch and leaves the state unchanged. -/
def processMessage (st : DecState) : SelectMessage → DecState
  | SelectMessage.records payload => { st with data := textDecode payload }
  | SelectMessage.stats d => { st with trace := st.trace ++ [LogEvent.statsDetails d] }
  | SelectMessage.endMsg => { st with trace := st.trace ++ [LogEvent.endOfStream] }
  | _ => st

/-- The whole `for await` loop: fold the loop body over the message
sequence, front to back, until the sequence is exhausted. -/
def consumeLoop (msgs : List SelectMessage) (st : DecState) : DecState :=
  msgs.foldl processMessage st

/-- The error taxonomy the spec assigns to the decoder (`UpstreamError`,
`Truncated`, `DecodeFailure`).  The source's loop has no failing path, so
`decode` below never returns any of these; the type exists so the spec's
failure claims can be stated and refuted. -/
inductive QueryError where
  | upstream (code detail : String)
  | truncated
  | decodeFailure

deriving instance DecidableEq for QueryError

deriving instance DecidableEq for Except

/-- The spec's `decode(messageStream) -> Result<DecodedText, QueryError>`,
as the source implements it: run the loop and return the accumulated text.
No branch of the loop fails, so the result is always `ok`. -/
def decode (msgs : List SelectMessage) : Except QueryError String :=
  Except.ok (consumeLoop msgs initState).data

/-- `queryFile`'s handling of the response: with a payload stream, consume
it and then log the accumulated text; with no payload stream (`Payload`
absent), log `No result` and leave the text at the empty string. -/
def queryFile (payload : Option (List SelectMessage)) : DecState :=
  match payload with
  | some msgs =>
    let st := consumeLoop msgs initState
    { st with trace := st.trace ++ [LogEvent.dataOut st.data] }
  | none => { data := "", trace := [LogEvent.noResult] }

/-! ## Derived notions used to state the claims -/

/-- The payload of a `Records` message, `none` for every other variant. -/
def recPayload : SelectMessage → Option (List Nat)
  | SelectMessage.records p => some p
  | _ => none

/-- The payload of the last `Records` message of the sequence, if any. -/
def lastRecordsPayload (msgs : List SelectMessage) : Option (List Nat) :=
  (msgs.filterMap recPayload).getLast?

/-- The text the chosen accumulation policy (re-assignment on every
`Records` message, the observed source behavior) expects from a sequence:
the decoding of the last `Records` payload, or the empty string when the
sequence carries none. -/
def expectedText (msgs : List SelectMessage) : String :=
  match lastRecordsPayload msgs with
  | some p => textDecode p
  | none => ""

/-- `Stats` and `Progress` are the informational messages: they must not
affect the decoded text. -/
def isInformational : SelectMessage → Bool
  | SelectMessage.stats _ => true
  | SelectMessage.progress _ => true
  | _ => false

/-- A message that is neither the terminal marker nor an error. -/
def noTerminal : SelectMessage → Bool
  | SelectMessage.endMsg => false
  | SelectMessage.errMsg _ _ => false
  | _ => true

/-- The detail emissions (stats or progress details) within a trace. -/
def detailEmissions (t : List LogEvent) : List LogEvent :=
  t.filter fun e =>
    match e with
    | LogEvent.statsDetails _ => true
    | LogEvent.progressDetails _ => true
    | _ => false

/-- The loop as a counting runner: process the messages front to back and
count the iterations until the sequence is exhausted. -/
def runLoop : List SelectMessage → DecState → Nat × DecState
  | [], st => (0, st)
  | m :: rest, st =>
    let r := runLoop rest (processMessage st m)
    (r.1 + 1, r.2)

/-- The number of messages the loop consumes before control returns. -/
def consumedCount (msgs : List SelectMessage) : Nat :=
  (runLoop msgs initState).1

/-- Where consumption would end if it stopped at the first `End` message or
at exhaustion, whichever comes first: the position just past the first
`End`, or the length of the sequence when it has no `End`. -/
def endStop : List SelectMessage → Nat
  | [] => 0
  | SelectMessage.endMsg :: _ => 1
  | _ :: rest => endStop rest + 1

example : textDecode [97, 44, 98, 10] = "a,b\n" := by decide
example : textDecode [255] = String.mk [Char.ofNat 0xFFFD] := by decide
example : decode [SelectMessage.records [97], SelectMessage.endMsg] = Except.ok "a" := by decide

/-! ## Core lemmas about the loop -/

/-- Consuming a concatenation is consuming the first part, then the second. -/
lemma consumeLoop_append (xs ys : List SelectMessage) (st : DecState) :
    consumeLoop (xs ++ ys) st = consumeLoop ys (consumeLoop xs st) :=
  List.foldl_append ..

/-- Unfold one step of the loop. -/
lemma consumeLoop_cons (m : SelectMessage) (rest : List SelectMessage) (st : DecState) :
    consumeLoop (m :: rest) st = consumeLoop rest (processMessage st m) := rfl

/-- A `Progress` message matches no branch of the loop body. -/
lemma processMessage_progress (st : DecState) (d : String) :
    processMessage st (SelectMessage.progress d) = st := rfl

/-- A `Continuation` message matches no branch of the loop body. -/
lemma processMessage_contToken (st : DecState) (t : String) :
    processMessage st (SelectMessage.contToken t) = st := rfl

/-- An `Error` message matches no branch of the loop body. -/
lemma processMessage_errMsg (st : DecState) (c m : String) :
    processMessage st (SelectMessage.errMsg c m) = st := rfl

/-- The accumulated text after the loop is the decoding of the last
`Records` payload seen, and the entry text when none was seen: every
`Records` message re-assigns the text, every other message leaves it
unchanged. -/
lemma consumeLoop_data (msgs : List SelectMessage) (st : DecState) :
    (consumeLoop msgs st).data =
      match (msgs.filterMap recPayload).getLast? with
      | some p => textDecode p
      | none => st.data := by
  induction msgs generalizing st with
  | nil => rfl
  | cons m rest ih =>
    cases m with
    | records p =>
      rw [consumeLoop_cons, ih]
      cases h : (rest.filterMap recPayload).getLast? with
      | none => simp [List.filterMap_cons, recPayload, List.getLast?_cons, h, processMessage]
      | some q => simp [List.filterMap_cons, recPayload, List.getLast?_cons, h]
    | stats d =>
      rw [consumeLoop_cons, ih]
      simp [List.filterMap_cons, recPayload, processMessage]
    | progress d =>
      rw [consumeLoop_cons, ih]
      simp [List.filterMap_cons, recPayload, processMessage]
    | contToken t =>
      rw [consumeLoop_cons, ih]
      simp [List.filterMap_cons, recPayload, processMessage]
    | endMsg =>
      rw [consumeLoop_cons, ih]
      simp [List.filterMap_cons, recPayload, processMessage]
    | errMsg c d =>
      rw [consumeLoop_cons, ih]
      simp [List.filterMap_cons, recPayload, processMessage]

/-- `decode` always succeeds, with the text of the accumulation policy. -/
lemma decode_eq_ok (msgs : List SelectMessage) :
    decode msgs = Except.ok (expectedText msgs) := by
  unfold decode expectedText lastRecordsPayload
  rw [consumeLoop_data]
  cases (msgs.filterMap recPayload).getLast? <;> rfl

/-- Dropping the informational messages leaves the `Records` payloads of a
sequence unchanged. -/
lemma filterMap_filter_informational (msgs : List SelectMessage) :
    ((msgs.filter fun m => !(isInformational m)).filterMap recPayload) =
      msgs.filterMap recPayload := by
  induction msgs with
  | nil => rfl
  | cons m rest ih =>
    cases m <;>
      simpa [List.filter_cons, isInformational, List.filterMap_cons, recPayload] using ih

/-! ## The claims -/

/-- C1: for every well-formed message sequence that ends in exactly one
`End` message, `decode` returns success, and the returned text is the
expected decoding of the `Records` payloads per the chosen accumulation
policy (re-assignment, so the last payload wins). -/
theorem c1_wellFormed_decode (msgs : List SelectMessage)
    (_hlast : msgs.getLast? = some SelectMessage.endMsg)
    (_honce : msgs.count SelectMessage.endMsg = 1) :
    decode msgs = Except.ok (expectedText msgs) :=
  decode_eq_ok msgs

/-- C1 witness: scenario A, the sequence `[Records("a,b\n"), End]` is
well-formed and decodes to `"a,b\n"`. -/
theorem c1_wellFormed_decode_witness :
    ([SelectMessage.records [97, 44, 98, 10], SelectMessage.endMsg].getLast? =
        some SelectMessage.endMsg) ∧
    ([SelectMessage.records [97, 44, 98, 10], SelectMessage.endMsg].count
        SelectMessage.endMsg = 1) ∧
    decode [SelectMessage.records [97, 44, 98, 10], SelectMessage.endMsg] =
      Except.ok "a,b\n" :=
  ⟨by decide, by decide,
   (c1_wellFormed_decode _ (by decide) (by decide)).trans (by decide)⟩

/-- C2 counterexample: on `[Records("partial"), Error("InternalError", ...)]`
`decode` returns success `"partial"` instead of failing with an
`UpstreamError`, and on `[Error(...), Records("x")]` the message after the
`Error` is processed (the result is `"x"`). -/
theorem c2_counterexample :
    decode [SelectMessage.records [112, 97, 114, 116, 105, 97, 108],
            SelectMessage.errMsg "InternalError" "boom"] = Except.ok "partial" ∧
    decode [SelectMessage.errMsg "InternalError" "boom",
            SelectMessage.records [120]] = Except.ok "x" :=
  ⟨by decide, by decide⟩

/-- C2 amended: an `Error` message matches no branch of the loop, so it is
ignored entirely: `decode` of a sequence with the `Error` removed is the
same, no failure is surfaced, and the messages after the `Error` are
processed normally. -/
theorem c2_amended_error_ignored (c m : String) (pre post : List SelectMessage) :
    decode (pre ++ SelectMessage.errMsg c m :: post) = decode (pre ++ post) := by
  unfold decode
  rw [consumeLoop_append, consumeLoop_cons, processMessage_errMsg, ← consumeLoop_append]

/-- C3 counterexample: the sequence `[Progress(...)]` exhausts without an
`End` or `Error`, and `decode` returns success with the empty string instead
of failing with `Truncated`. -/
theorem c3_counterexample :
    decode [SelectMessage.progress "p"] = Except.ok "" ∧
    decode [SelectMessage.progress "p"] ≠ Except.error QueryError.truncated :=
  ⟨by decide, by decide⟩

/-- C3 amended: when the sequence exhausts without an `End` or `Error`
message ever appearing, `decode` returns success with the accumulated
(possibly partial, possibly empty) text; no `Truncated` failure exists in
the code. -/
theorem c3_amended_exhaustion_succeeds (msgs : List SelectMessage)
    (_h : msgs.all noTerminal = true) :
    decode msgs = Except.ok (expectedText msgs) ∧
    decode msgs ≠ Except.error QueryError.truncated := by
  refine ⟨decode_eq_ok msgs, ?_⟩
  rw [decode_eq_ok msgs]
  exact fun hh => Except.noConfusion hh

/-- C3 amended witness: scenario D, the sequence `[Progress(...)]` satisfies
the no-terminal hypothesis and decodes to success with the empty string. -/
theorem c3_amended_witness :
    ([SelectMessage.progress "p2"].all noTerminal = true) ∧
    decode [SelectMessage.progress "p2"] = Except.ok "" :=
  ⟨by decide,
   ((c3_amended_exhaustion_succeeds _ (by decide)).1).trans (by decide)⟩

/-- C4 counterexample: for `[Records([0xFF]), End]` (an invalid UTF-8
payload) `decode` succeeds with the replacement character U+FFFD instead of
failing with `DecodeFailure`, and the trailing `End` is still consumed (its
log emission appears). -/
theorem c4_counterexample :
    decode [SelectMessage.records [255], SelectMessage.endMsg] =
      Except.ok (String.mk [Char.ofNat 0xFFFD]) ∧
    decode [SelectMessage.records [255], SelectMessage.endMsg] ≠
      Except.error QueryError.decodeFailure ∧
    (consumeLoop [SelectMessage.records [255], SelectMessage.endMsg]
        initState).trace = [LogEvent.endOfStream] :=
  ⟨by decide, by decide, by decide⟩

/-- C4 amended: a `Records` payload that is not valid UTF-8 is decoded in
the non-fatal mode of `TextDecoder` (invalid bytes become U+FFFD): `decode`
never fails, and subsequent messages — including a trailing `End` — are
consumed. -/
theorem c4_amended_replacement (payload : List Nat) :
    decode [SelectMessage.records payload, SelectMessage.endMsg] =
      Except.ok (textDecode payload) ∧
    (consumeLoop [SelectMessage.records payload, SelectMessage.endMsg]
        initState).trace = [LogEvent.endOfStream] :=
  ⟨rfl, rfl⟩

/-- C5 counterexample: on `[End, Records("x")]` the `Records` message
positioned after the `End` is processed — the result is `"x"`, different
from the decoding of `[End]` alone. -/
theorem c5_counterexample :
    decode [SelectMessage.endMsg, SelectMessage.records [120]] = Except.ok "x" ∧
    decode [SelectMessage.endMsg, SelectMessage.records [120]] ≠
      decode [SelectMessage.endMsg] :=
  ⟨by decide, by decide⟩

/-- C5 amended: the loop does not stop at an `End` message; consumption
continues through every message after it, exactly as if `End` were not
terminal.  (In a well-formed stream `End` is the last message, so nothing
follows it.) -/
theorem c5_amended_no_stop_at_end (pre post : List SelectMessage) (st : DecState) :
    consumeLoop (pre ++ SelectMessage.endMsg :: post) st =
      consumeLoop post (processMessage (consumeLoop pre st) SelectMessage.endMsg) := by
  rw [consumeLoop_append, consumeLoop_cons]

/-- C6: `Stats` and `Progress` messages never change the returned decoded
text: removing all of them from a sequence leaves `decode`'s result
unchanged. -/
theorem c6_informational_no_effect (msgs : List SelectMessage) :
    decode (msgs.filter fun m => !(isInformational m)) = decode msgs := by
  rw [decode_eq_ok, decode_eq_ok]
  unfold expectedText lastRecordsPayload
  rw [filterMap_filter_informational]

/-- C7 counterexample: on scenario B, `[Stats(...), Records("row1"),
Progress(...), End]`, only one detail emission is observed (the stats one):
the `Progress` message matches no branch and emits nothing, so the two
ordered emissions the claim expects do not occur. -/
theorem c7_counterexample :
    detailEmissions ((consumeLoop [SelectMessage.stats "s1",
        SelectMessage.records [114, 111, 119, 49], SelectMessage.progress "p1",
        SelectMessage.endMsg] initState).trace) = [LogEvent.statsDetails "s1"] ∧
    detailEmissions ((consumeLoop [SelectMessage.stats "s1",
        SelectMessage.records [114, 111, 119, 49], SelectMessage.progress "p1",
        SelectMessage.endMsg] initState).trace) ≠
      [LogEvent.statsDetails "s1", LogEvent.progressDetails "p1"] :=
  ⟨by decide, by decide⟩

/-- C7 amended: a `Progress` message is ignored by the loop (no emission,
no state change); only `Stats` messages emit their details, so scenario B
observes exactly one detail emission. -/
theorem c7_amended_progress_silent :
    (∀ (d : String) (pre post : List SelectMessage) (st : DecState),
        consumeLoop (pre ++ SelectMessage.progress d :: post) st =
          consumeLoop (pre ++ post) st) ∧
    detailEmissions ((consumeLoop [SelectMessage.stats "s1",
        SelectMessage.records [114, 111, 119, 49], SelectMessage.progress "p1",
        SelectMessage.endMsg] initState).trace) = [LogEvent.statsDetails "s1"] := by
  constructor
  · intro d pre post st
    rw [consumeLoop_append, consumeLoop_cons, processMessage_progress,
      ← consumeLoop_append]
  · decide

/-- C8: every `Records` message re-assigns (overwrites) the accumulated
text, so for a stream with more than one `Records` message that ends in
`End`, the returned text is the decoding of the last `Records` payload
only. -/
theorem c8_overwrite_last_records (msgs : List SelectMessage) (p : List Nat)
    (_hend : msgs.getLast? = some SelectMessage.endMsg)
    (_htwo : 2 ≤ (msgs.filterMap recPayload).length)
    (hlast : lastRecordsPayload msgs = some p) :
    decode msgs = Except.ok (textDecode p) := by
  unfold decode
  rw [consumeLoop_data]
  unfold lastRecordsPayload at hlast
  rw [hlast]

/-- C8 witness: on `[Records("first"), Records("second"), End]` the result
is `"second"` — the first payload is lost to the overwrite. -/
theorem c8_overwrite_witness :
    (2 ≤ ([SelectMessage.records [102, 105, 114, 115, 116],
           SelectMessage.records [115, 101, 99, 111, 110, 100],
           SelectMessage.endMsg].filterMap recPayload).length) ∧
    decode [SelectMessage.records [102, 105, 114, 115, 116],
            SelectMessage.records [115, 101, 99, 111, 110, 100],
            SelectMessage.endMsg] = Except.ok "second" :=
  ⟨by decide,
   (c8_overwrite_last_records _ [115, 101, 99, 111, 110, 100] (by decide)
     (by decide) (by decide)).trans (by decide)⟩

/-- C9 counterexample: on `[End, Stats(...)]` the loop consumes two
messages, not one: consumption does not end at the `End` message even
though it comes before exhaustion. -/
theorem c9_counterexample :
    consumedCount [SelectMessage.endMsg, SelectMessage.stats "d"] = 2 ∧
    endStop [SelectMessage.endMsg, SelectMessage.stats "d"] = 1 ∧
    consumedCount [SelectMessage.endMsg, SelectMessage.stats "d"] ≠
      endStop [SelectMessage.endMsg, SelectMessage.stats "d"] :=
  ⟨by decide, by decide, by decide⟩

/-- C9 amended: `decode` terminates on every finite message sequence: the
loop runs exactly one iteration per message and control returns to the
caller with the loop's final state at exhaustion of the sequence (an
earlier `End` does not cut consumption short). -/
theorem c9_amended_terminates (msgs : List SelectMessage) (st : DecState) :
    runLoop msgs st = (msgs.length, consumeLoop msgs st) := by
  induction msgs generalizing st with
  | nil => rfl
  | cons m rest ih => simp [runLoop, ih, consumeLoop_cons]

/-- C10: when the query response carries no payload stream, `queryFile`
completes normally, reports `No result`, emits no decoded text, and leaves
the accumulated result at the empty string. -/
theorem c10_no_payload :
    queryFile Option.none = { data := "", trace := [LogEvent.noResult] } :=
  rfl
